import Mathlib

/-!
Verification of the thermal-printer command protocol engine of the
`tetuanhairi` point-of-sale application.

The receipt-assembly and sequencing logic is embedded from
`src/App.tsx` (`printBluetoothDirect`, `formatDateForDisplay`), the data
model from `src/unnamed/part_000` (`types.ts`).  The Bluetooth utility
module `./utils/bluetoothUtils` (constants `ESC_*` / `FONT_SIZE_*`,
`textToBytes`, `getSeparator`, `sendDataToPrinter`) is imported by
`App.tsx` but its source is not part of the repository snapshot; those
definitions are modelled from the specification, as marked in their doc
comments.

Bytes are modelled as `Nat` (all produced values are < 256); JS strings
as Lean `String`; monetary amounts as exact cent counts (`Nat`), since
no verified property depends on floating-point rounding.
-/

/-- The closed set of ESC/POS operations of the core
(spec section 3, `PrinterCommand`). -/
inductive PrinterCommand where
  | Init
  | AlignLeft
  | AlignCenter
  | BoldOn
  | BoldOff
  | FontNormal
  | FontLarge
  | FontDoubleHeight
  | Feed
  | Text (s : String)
deriving DecidableEq, Repr

/-- Paper profile: `'58mm'` (Narrow) or `'80mm'` (Wide), mirroring
`PrinterSettings.paperWidth` in `types.ts`. -/
inductive PaperProfile where
  | Narrow
  | Wide
deriving DecidableEq, Repr

/-- Payment method enumeration from `types.ts`. -/
inductive PaymentMethod where
  | TUNAI
  | ONLINE
  | QR
deriving DecidableEq, Repr

/-- Printer-relevant fields of `PrinterSettings` from `types.ts`.
`fontSize` is carried but unused by `printBluetoothDirect`; sync- and
persistence-related fields (`googleSheetUrl`, `autoSaveInterval`, ...)
play no role in the print path and are omitted. -/
structure PrinterSettings where
  paperWidth : PaperProfile
  fontSize : String
  extraFeeds : Nat
  boldHeaders : Bool
  footerText : String
  includePhone : Bool
  includeAddress : Bool
deriving DecidableEq, Repr

/-- The customer-form fields used by `printBluetoothDirect`
(`clientForm` state in `App.tsx`). -/
structure ClientForm where
  date : String
  name : String
  phone : String
  address : String
  payment : PaymentMethod
deriving DecidableEq, Repr

/-- A cart entry (`CartItem` in `types.ts`); `price` in exact cents. -/
structure CartItem where
  id : String
  name : String
  price : Nat
deriving DecidableEq, Repr

/-- Modelled from the spec: `textToBytes` of the missing
`bluetoothUtils` module.  Encodes each character to its single-byte
code point; characters outside the single-byte range are substituted
with the fallback byte `'?'` (63) rather than failing (spec section
4.1).  Total by construction: text encoding never fails. -/
def textToBytes (s : String) : List Nat :=
  s.data.map (fun c => if c.toNat ≤ 255 then c.toNat else 63)

/-- Modelled from the spec: column width per paper profile —
32 columns for narrow (58mm) stock, 48 for wide (80mm), fixed policy
constants (spec section 3, `PaperProfile`). -/
def width : PaperProfile → Nat
  | .Narrow => 32
  | .Wide => 48

/-- Modelled from the spec: `getSeparator` of the missing
`bluetoothUtils` module.  A dash line exactly `width profile`
characters long followed by the line terminator (spec section 4.1,
`separator`). -/
def getSeparator (profile : PaperProfile) : String :=
  String.mk (List.replicate (width profile) '-') ++ "\n"

/-- Modelled from the spec: `encode` over the missing `bluetoothUtils`
constants (`ESC_INIT`, `ESC_ALIGN_*`, `ESC_BOLD_*`, `FONT_SIZE_*`,
`ESC_FEED`) and `textToBytes`.  Control variants map to the literal
fixed ESC/POS byte sequences; `Text` defers to `textToBytes`
(spec sections 3 and 4.1). -/
def encode : PrinterCommand → List Nat
  | .Init => [27, 64]
  | .AlignLeft => [27, 97, 0]
  | .AlignCenter => [27, 97, 1]
  | .BoldOn => [27, 69, 1]
  | .BoldOff => [27, 69, 0]
  | .FontNormal => [29, 33, 0]
  | .FontLarge => [29, 33, 17]
  | .FontDoubleHeight => [29, 33, 1]
  | .Feed => [10]
  | .Text s => textToBytes s

/-- Render a cent amount the way JS `x.toFixed(2)` renders the
corresponding ringgit value (e.g. 1050 ↦ "10.50"). -/
def toFixed2 (cents : Nat) : String :=
  toString (cents / 100) ++ "." ++
    (if cents % 100 < 10 then "0" else "") ++ toString (cents % 100)

/-- `formatDateForDisplay` from `App.tsx`: empty dates display as "-",
dates already containing '/' pass through, and ISO `Y-M-D` dates are
rearranged to `D/M/Y`. -/
def formatDateForDisplay (isoDate : String) : String :=
  if isoDate = "" then "-"
  else if isoDate.contains '/' then isoDate
  else
    match isoDate.splitOn "-" with
    | y :: m :: d :: _ => d ++ "/" ++ m ++ "/" ++ y
    | _ => isoDate

/-- `total` from `App.tsx`: the cart sum (in cents in this model). -/
def cartTotal (cart : List CartItem) : Nat :=
  (cart.map (·.price)).sum

/-- The ordered command sequence issued by `printBluetoothDirect` in
`App.tsx` (lines 344–386): one entry per `sendDataToPrinter` call, in
source order.  Conditional sends mirror the source conditions exactly:
the header bold pair is gated on `boldHeaders`; the `Tel:` / `Alamat:`
lines on `!isTest`, the respective include flag, and JS truthiness of
the field (non-empty string); the body is the fixed test lines or the
cart items; the footer falls back to "Terima Kasih" when
`footerText` is empty (JS `||`); `extraFeeds` feed commands close the
job. -/
def printCommands (ps : PrinterSettings) (form : ClientForm)
    (cart : List CartItem) (isTest : Bool) : List PrinterCommand :=
  let sep := getSeparator ps.paperWidth
  [PrinterCommand.Init, PrinterCommand.AlignCenter]
  ++ (if ps.boldHeaders then [PrinterCommand.BoldOn] else [])
  ++ [PrinterCommand.FontLarge,
      PrinterCommand.Text "HAIRI MUSTAFA ASSOCIATES",
      PrinterCommand.FontNormal]
  ++ (if ps.boldHeaders then [PrinterCommand.BoldOff] else [])
  ++ [PrinterCommand.Text "Peguam Syarie & PJS",
      PrinterCommand.Text "011-5653 1310",
      PrinterCommand.Text sep,
      PrinterCommand.AlignLeft,
      PrinterCommand.Text ("Tarikh: " ++ formatDateForDisplay form.date),
      PrinterCommand.Text ("Nama: " ++ (if isTest then "TEST PRINT" else form.name))]
  ++ (if !isTest && ps.includePhone && form.phone ≠ "" then
        [PrinterCommand.Text ("Tel: " ++ form.phone)] else [])
  ++ (if !isTest && ps.includeAddress && form.address ≠ "" then
        [PrinterCommand.Text ("Alamat: " ++ form.address)] else [])
  ++ [PrinterCommand.Text sep]
  ++ (if isTest then
        [PrinterCommand.Text "TEST SERVICE", PrinterCommand.Text "RM 10.00"]
      else
        cart.flatMap (fun item =>
          [PrinterCommand.Text item.name,
           PrinterCommand.Text ("RM " ++ toFixed2 item.price)]))
  ++ [PrinterCommand.Text sep,
      PrinterCommand.AlignCenter,
      PrinterCommand.BoldOn,
      PrinterCommand.FontDoubleHeight,
      PrinterCommand.Text ("JUMLAH: RM " ++
        (if isTest then "10.00" else toFixed2 (cartTotal cart))),
      PrinterCommand.FontNormal,
      PrinterCommand.BoldOff,
      PrinterCommand.Text (if ps.footerText = "" then "Terima Kasih" else ps.footerText)]
  ++ List.replicate ps.extraFeeds PrinterCommand.Feed

/-- The buffer list handed to the transport: each command encoded
(`sendDataToPrinter(char, bytes)` receives exactly these byte buffers,
in this order). -/
def printBuffers (ps : PrinterSettings) (form : ClientForm)
    (cart : List CartItem) (isTest : Bool) : List (List Nat) :=
  (printCommands ps form cart isTest).map encode

/-- The link handle as the spec models it (spec section 3,
`PrinterLink`): either connected (holding a write capability, which in
this embedding is the externally supplied write oracle) or
disconnected.  In `App.tsx` this is `bt.characteristic` being non-null
or null. -/
inductive PrinterLink where
  | Connected
  | Disconnected
deriving DecidableEq, Repr

/-- Transport error taxonomy (spec section 7). `ChunkWriteFailed`
carries the 0-based index of the command whose write failed. -/
inductive TransportError where
  | LinkNotConnected
  | ChunkWriteFailed (idx : Nat)
  | LinkDisconnected
deriving DecidableEq, Repr

/-- Modelled from the spec: the chunking step of `sendDataToPrinter`
(`send` in spec section 4.2) of the missing `bluetoothUtils` module.
A buffer longer than the chunk limit `L` is split into sequential
sub-buffers, each of at most `L` bytes, transmitted in list order. -/
def chunks (L : Nat) (buf : List Nat) : List (List Nat) :=
  if h : buf = [] ∨ L = 0 then []
  else buf.take L :: chunks L (buf.drop L)
termination_by buf.length
decreasing_by
  simp only [not_or] at h
  have h1 : buf ≠ [] := h.1
  have h2 : 0 < L := Nat.pos_of_ne_zero h.2
  have : 0 < buf.length := List.length_pos.mpr h1
  simp [List.length_drop]
  omega

/-- Modelled from the spec: the sequencing loop of `send_sequence`
(spec section 4.2) — the chain of awaited `sendDataToPrinter` calls in
`printBluetoothDirect`.  `ok j` tells whether the transport accepts
the write of the buffer at absolute index `j`; the loop attempts each
buffer in order, records the attempt and its outcome, and stops at the
first failure returning its index.  Exactly one write is outstanding
at a time: the trace is built strictly left to right. -/
def sendSeqFrom (ok : Nat → Bool) (i : Nat) :
    List (List Nat) → List (List Nat × Bool) × Except Nat Unit
  | [] => ([], Except.ok ())
  | b :: rest =>
    if ok i then
      let p := sendSeqFrom ok (i + 1) rest
      ((b, true) :: p.1, p.2)
    else
      ([(b, false)], Except.error i)

/-- Modelled from the spec: `send_sequence(link, buffers)` (spec
sections 4.2 and 7).  On a disconnected link it fails fast with
`LinkNotConnected` and writes nothing; otherwise it drives the
sequential write loop, mapping the index of the first failed write to
a `ChunkWriteFailed` error.  No rollback, no retry. -/
def send_sequence (link : PrinterLink) (ok : Nat → Bool)
    (bufs : List (List Nat)) :
    List (List Nat × Bool) × Except TransportError Unit :=
  match link with
  | .Disconnected => ([], Except.error TransportError.LinkNotConnected)
  | .Connected =>
    let p := sendSeqFrom ok 0 bufs
    (p.1, p.2.mapError TransportError.ChunkWriteFailed)

/-- Buffers written successfully by a trace (a failed attempt hands no
bytes to the device). -/
def written (tr : List (List Nat × Bool)) : List (List Nat) :=
  (tr.filter (·.2)).map (·.1)

/-- Buffers attempted by a trace (handed to the transport at all). -/
def attempted (tr : List (List Nat × Bool)) : List (List Nat) :=
  tr.map (·.1)

/-- The guard and send sequence of `printBluetoothDirect` in `App.tsx`
(lines 342–386): with no characteristic it returns immediately
(`alert`, zero writes); otherwise every encoded buffer is handed to
`sendDataToPrinter` in order via `send_sequence`. -/
def printBluetoothDirect (link : PrinterLink) (ok : Nat → Bool)
    (ps : PrinterSettings) (form : ClientForm) (cart : List CartItem)
    (isTest : Bool) :
    List (List Nat × Bool) × Except TransportError Unit :=
  match link with
  | .Disconnected => ([], Except.error TransportError.LinkNotConnected)
  | .Connected => send_sequence .Connected ok (printBuffers ps form cart isTest)

/-- The printer's font-size state as driven by the `FONT_SIZE_*`
commands. -/
inductive FontState where
  | normal
  | large
  | doubleHeight
deriving DecidableEq, Repr

/-- Bold state of the device after processing a command list starting
from state `b` (the device applies `ESC_BOLD_ON` / `ESC_BOLD_OFF` in
arrival order). -/
def finalBold : Bool → List PrinterCommand → Bool
  | b, [] => b
  | _, PrinterCommand.BoldOn :: t => finalBold true t
  | _, PrinterCommand.BoldOff :: t => finalBold false t
  | b, _ :: t => finalBold b t

/-- Font-size state of the device after processing a command list
starting from state `f`. -/
def finalFont : FontState → List PrinterCommand → FontState
  | _, PrinterCommand.FontNormal :: t => finalFont FontState.normal t
  | _, PrinterCommand.FontLarge :: t => finalFont FontState.large t
  | _, PrinterCommand.FontDoubleHeight :: t => finalFont FontState.doubleHeight t
  | f, [] => f
  | f, _ :: t => finalFont f t

/-- Every `BoldOn` in the list is followed, later in the list, by a
`BoldOff`. -/
def boldClosed : List PrinterCommand → Bool
  | [] => true
  | c :: rest =>
    (if c = PrinterCommand.BoldOn then decide (PrinterCommand.BoldOff ∈ rest)
     else true) && boldClosed rest

/-- Every `FontLarge` or `FontDoubleHeight` in the list is followed,
later in the list, by a `FontNormal`. -/
def fontClosed : List PrinterCommand → Bool
  | [] => true
  | c :: rest =>
    (if c = PrinterCommand.FontLarge ∨ c = PrinterCommand.FontDoubleHeight
     then decide (PrinterCommand.FontNormal ∈ rest)
     else true) && fontClosed rest

/-- Commands that leave the bold and font state of the device
untouched (everything except the bold and font-size controls). -/
def plain : PrinterCommand → Bool
  | .BoldOn => false
  | .BoldOff => false
  | .FontNormal => false
  | .FontLarge => false
  | .FontDoubleHeight => false
  | _ => true

/-- Concrete settings: narrow paper, default footer, includes on. -/
def psA : PrinterSettings :=
  ⟨PaperProfile.Narrow, "Normal", 3, true,
   "Terima Kasih atas urusan anda.", true, true⟩

/-- As `psA` but with phone/address inclusion switched off. -/
def psB : PrinterSettings :=
  ⟨PaperProfile.Narrow, "Normal", 3, true,
   "Terima Kasih atas urusan anda.", false, false⟩

/-- A concrete customer form with phone and address filled in. -/
def formA : ClientForm := ⟨"", "Ali", "0123456789", "Jalan Satu", PaymentMethod.TUNAI⟩

/-- As `formA` with phone and address blank. -/
def formB : ClientForm := ⟨"", "Ali", "", "", PaymentMethod.TUNAI⟩

/-- A one-item concrete cart. -/
def cartA : List CartItem := [⟨"1", "SEWA BELI", 1000⟩]

/-- The formatting skeleton every `printBluetoothDirect` job has: a
header whose bold pair is gated on `flag`, a large-font title paired
with its reset, a plain middle section `m`, the always-bold
double-height total section with its resets, and `k` trailing feeds. -/
def receiptShape (flag : Bool) (t1 tot foot : String)
    (m k : List PrinterCommand) : List PrinterCommand :=
  [PrinterCommand.Init, PrinterCommand.AlignCenter]
  ++ (if flag then [PrinterCommand.BoldOn] else [])
  ++ [PrinterCommand.FontLarge, PrinterCommand.Text t1,
      PrinterCommand.FontNormal]
  ++ (if flag then [PrinterCommand.BoldOff] else [])
  ++ m
  ++ [PrinterCommand.AlignCenter, PrinterCommand.BoldOn,
      PrinterCommand.FontDoubleHeight, PrinterCommand.Text tot,
      PrinterCommand.FontNormal, PrinterCommand.BoldOff,
      PrinterCommand.Text foot]
  ++ k

/-- The middle (formatting-neutral) section of a print job: contact
lines, date/name, optional phone/address, separators and the body. -/
def printMiddle (ps : PrinterSettings) (form : ClientForm)
    (cart : List CartItem) (isTest : Bool) : List PrinterCommand :=
  let sep := getSeparator ps.paperWidth
  [PrinterCommand.Text "Peguam Syarie & PJS",
   PrinterCommand.Text "011-5653 1310",
   PrinterCommand.Text sep,
   PrinterCommand.AlignLeft,
   PrinterCommand.Text ("Tarikh: " ++ formatDateForDisplay form.date),
   PrinterCommand.Text ("Nama: " ++ (if isTest then "TEST PRINT" else form.name))]
  ++ (if !isTest && ps.includePhone && form.phone ≠ "" then
        [PrinterCommand.Text ("Tel: " ++ form.phone)] else [])
  ++ (if !isTest && ps.includeAddress && form.address ≠ "" then
        [PrinterCommand.Text ("Alamat: " ++ form.address)] else [])
  ++ [PrinterCommand.Text sep]
  ++ (if isTest then
        [PrinterCommand.Text "TEST SERVICE", PrinterCommand.Text "RM 10.00"]
      else
        cart.flatMap (fun item =>
          [PrinterCommand.Text item.name,
           PrinterCommand.Text ("RM " ++ toFixed2 item.price)]))
  ++ [PrinterCommand.Text sep]

/-- Boolean character-list prefix test. -/
def listPre : List Char → List Char → Bool
  | [], _ => true
  | _ :: _, [] => false
  | a :: as, b :: bs => a == b && listPre as bs

/-- A command that renders as a line beginning with `Tel: ` or
`Alamat: ` (the shape of the customer phone/address lines in
`printBluetoothDirect`). -/
def telOrAlamat : PrinterCommand → Bool
  | .Text s =>
    listPre ("Tel: ".data) s.data || listPre ("Alamat: ".data) s.data
  | _ => false

/-- Whether a command sequence emits some `Tel: `/`Alamat: ` line. -/
def hasTelLine (l : List PrinterCommand) : Bool :=
  l.any telOrAlamat

/-! ## Theorems -/

theorem chunks_flatten (L : Nat) (hL : 0 < L) (buf : List Nat) :
    (chunks L buf).flatten = buf := by
  induction buf using chunks.induct L with
  | case1 buf h =>
    rcases h with h | h
    · rw [chunks]; simp [h]
    · omega
  | case2 buf h ih =>
    simp only [not_or] at h
    rw [chunks]
    simp only [h.1, h.2, or_self, dite_false, List.flatten_cons, ih,
      List.take_append_drop]

theorem chunks_mem_length (L : Nat) (buf : List Nat) :
    ∀ c ∈ chunks L buf, c.length ≤ L := by
  induction buf using chunks.induct L with
  | case1 buf h => rw [chunks]; simp [h]
  | case2 buf h ih =>
    rw [chunks]
    simp only [h, dite_false]
    intro c hc
    rcases List.mem_cons.mp hc with rfl | hc
    · simp
    · exact ih c hc

theorem chunks_length (L : Nat) (hL : 0 < L) (buf : List Nat) :
    (chunks L buf).length = (buf.length + L - 1) / L := by
  induction buf using chunks.induct L with
  | case1 buf h =>
    rcases h with h | h
    · rw [chunks]; simp [h]
      exact (Nat.div_eq_of_lt (by omega)).symm
    · omega
  | case2 buf h ih =>
    simp only [not_or] at h
    have hpos : 0 < buf.length := List.length_pos.mpr h.1
    rw [chunks]
    simp only [h.1, h.2, or_self, dite_false, List.length_cons, ih,
      List.length_drop]
    have key : buf.length + L - 1 = (buf.length - 1) + L := by omega
    rw [key, Nat.add_div_right _ hL]
    congr 1
    by_cases hcase : L ≤ buf.length
    · have h3 : buf.length - L + L - 1 = buf.length - 1 := by omega
      rw [h3]
    · have h1 : buf.length - L = 0 := by omega
      rw [h1]
      have h2 : (0 + L - 1) / L = 0 := Nat.div_eq_of_lt (by omega)
      rw [h2]
      exact (Nat.div_eq_of_lt (by omega)).symm

/-- C2: for every buffer whose length exceeds the chunk limit `L`,
`send` splits it into exactly `ceil(len/L)` sequential chunk writes
(here `(len + L - 1) / L` in exact Nat arithmetic), each chunk at most
`L` bytes, and the concatenation of the chunks in transmission order
is the original buffer. -/
theorem C2_send_chunks (L : Nat) (buf : List Nat)
    (hL : 0 < L) (hlen : L < buf.length) :
    (chunks L buf).length = (buf.length + L - 1) / L ∧
    (∀ c ∈ chunks L buf, c.length ≤ L) ∧
    (chunks L buf).flatten = buf :=
  ⟨chunks_length L hL buf, chunks_mem_length L buf, chunks_flatten L hL buf⟩

/-- Witness for C2 at `L = 2`, `buf = [1,2,3,4,5]`. -/
theorem C2_send_chunks_witness :
    0 < 2 ∧ 2 < [1, 2, 3, 4, 5].length ∧
    ((chunks 2 [1, 2, 3, 4, 5]).length = ([1, 2, 3, 4, 5].length + 2 - 1) / 2 ∧
     (∀ c ∈ chunks 2 [1, 2, 3, 4, 5], c.length ≤ 2) ∧
     (chunks 2 [1, 2, 3, 4, 5]).flatten = [1, 2, 3, 4, 5]) :=
  ⟨by decide, by decide, C2_send_chunks 2 [1, 2, 3, 4, 5] (by decide) (by decide)⟩

theorem sendSeqFrom_ok (ok : Nat → Bool) :
    ∀ (bufs : List (List Nat)) (i : Nat),
      (∀ j, j < bufs.length → ok (i + j) = true) →
      sendSeqFrom ok i bufs = (bufs.map (fun b => (b, true)), Except.ok ()) := by
  intro bufs
  induction bufs with
  | nil => intro i _; rfl
  | cons b rest ih =>
    intro i hok
    have h0 : ok i = true := by simpa using hok 0 (by simp)
    have hrest : ∀ j, j < rest.length → ok (i + 1 + j) = true := by
      intro j hj
      have := hok (j + 1) (by simp; omega)
      simpa [Nat.add_assoc, Nat.add_comm 1 j] using this
    simp [sendSeqFrom, h0, ih (i + 1) hrest]

theorem sendSeqFrom_fail (ok : Nat → Bool) :
    ∀ (bufs : List (List Nat)) (i k : Nat) (hk : k < bufs.length),
      (∀ j, j < k → ok (i + j) = true) → ok (i + k) = false →
      sendSeqFrom ok i bufs =
        ((bufs.take k).map (fun b => (b, true)) ++ [(bufs.get ⟨k, hk⟩, false)],
         Except.error (i + k)) := by
  intro bufs
  induction bufs with
  | nil => intro i k hk; simp at hk
  | cons b rest ih =>
    intro i k hk hprev hfail
    cases k with
    | zero =>
      have h0 : ok i = false := by simpa using hfail
      simp [sendSeqFrom, h0]
    | succ k' =>
      have h0 : ok i = true := by simpa using hprev 0 (by omega)
      have hk' : k' < rest.length := by simpa using hk
      have hprev' : ∀ j, j < k' → ok (i + 1 + j) = true := by
        intro j hj
        have := hprev (j + 1) (by omega)
        simpa [Nat.add_assoc, Nat.add_comm 1 j] using this
      have hfail' : ok (i + 1 + k') = false := by
        have h2 : i + 1 + k' = i + (k' + 1) := by omega
        rw [h2]; exact hfail
      simp [sendSeqFrom, h0, ih (i + 1) k' hk' hprev' hfail']
      omega

theorem written_split (l m : List (List Nat)) :
    written (l.map (fun b => (b, true)) ++ m.map (fun b => (b, false))) = l := by
  simp [written, List.filter_append, List.filter_map, Function.comp_def]

theorem attempted_split (l m : List (List Nat)) :
    attempted (l.map (fun b => (b, true)) ++ m.map (fun b => (b, false))) = l ++ m := by
  simp [attempted, Function.comp_def]

theorem drop_take_one (bufs : List (List Nat)) (k : Nat) (hk : k < bufs.length) :
    (bufs.drop k).take 1 = [bufs.get ⟨k, hk⟩] := by
  rw [List.drop_eq_getElem_cons hk]
  rfl

theorem written_all (l : List (List Nat)) :
    written (l.map (fun b => (b, true))) = l := by
  simpa using written_split l []

/-- C1: for every caller-supplied buffer sequence and every behaviour
of the transport, the write trace is exactly an in-order prefix of the
sequence (each of the first `k` buffers written, in order, one at a
time) optionally followed by the single failed attempt: no buffer is
reordered, merged or dropped, the writer never moves to buffer `N+1`
before buffer `N`'s write completed (the trace is built strictly left
to right), and on overall success every buffer was written. -/
theorem C1_sequence_preserved (ok : Nat → Bool) (bufs : List (List Nat)) :
    ∃ k, k ≤ bufs.length ∧
      (send_sequence PrinterLink.Connected ok bufs).1 =
        (bufs.take k).map (fun b => (b, true)) ++
          ((bufs.drop k).take 1).map (fun b => (b, false)) ∧
      written (send_sequence PrinterLink.Connected ok bufs).1 = bufs.take k ∧
      ((send_sequence PrinterLink.Connected ok bufs).2 = Except.ok () ↔
        k = bufs.length) := by
  by_cases hall : ∀ j, j < bufs.length → ok j = true
  · refine ⟨bufs.length, le_refl _, ?_, ?_, ?_⟩ <;>
      simp [send_sequence, sendSeqFrom_ok ok bufs 0 (by simpa using hall),
        Except.mapError, written, List.filter_map, Function.comp_def]
  · push_neg at hall
    obtain ⟨j, hj, hjf⟩ := hall
    have hjf' : ok j = false := by
      cases h : ok j
      · rfl
      · exact absurd h hjf
    have hex : ∃ m, ok m = false := ⟨j, hjf'⟩
    have hkf : ok (Nat.find hex) = false := Nat.find_spec hex
    have hkmin : ∀ m, m < Nat.find hex → ok m = true := by
      intro m hm
      have := Nat.find_min hex hm
      cases h : ok m
      · exact absurd h this
      · rfl
    have hklt : Nat.find hex < bufs.length :=
      lt_of_le_of_lt (Nat.find_min' hex hjf') hj
    have hrun := sendSeqFrom_fail ok bufs 0 (Nat.find hex) hklt
      (by simpa using hkmin) (by simpa using hkf)
    refine ⟨Nat.find hex, le_of_lt hklt, ?_, ?_, ?_⟩
    · simp [send_sequence, hrun, drop_take_one bufs _ hklt]
    · rw [show (send_sequence PrinterLink.Connected ok bufs).1 =
          (bufs.take (Nat.find hex)).map (fun b => (b, true)) ++
            [bufs.get ⟨Nat.find hex, hklt⟩].map (fun b => (b, false)) by
        simp [send_sequence, hrun]]
      exact written_split _ _
    · simp [send_sequence, hrun, Except.mapError]
      omega

/-- C3: when the transport fails on the buffer at index `i` and
accepted every earlier write, `send_sequence` writes exactly the
buffers before index `i` (in order), reports the typed failure
`ChunkWriteFailed i` identifying the failed index, attempts nothing
past index `i`, and attempts each buffer up to `i` exactly once (no
automatic retry): the attempt trace is precisely `bufs.take (i+1)`. -/
theorem C3_stop_at_first_failure (ok : Nat → Bool) (bufs : List (List Nat))
    (i : Nat) (hi : i < bufs.length)
    (hprev : ∀ j, j < i → ok j = true) (hfail : ok i = false) :
    written (send_sequence PrinterLink.Connected ok bufs).1 = bufs.take i ∧
    (send_sequence PrinterLink.Connected ok bufs).2 =
      Except.error (TransportError.ChunkWriteFailed i) ∧
    attempted (send_sequence PrinterLink.Connected ok bufs).1 =
      bufs.take (i + 1) := by
  have hrun := sendSeqFrom_fail ok bufs 0 i hi (by simpa using hprev)
    (by simpa using hfail)
  have htr : (send_sequence PrinterLink.Connected ok bufs).1 =
      (bufs.take i).map (fun b => (b, true)) ++
        [bufs.get ⟨i, hi⟩].map (fun b => (b, false)) := by
    simp [send_sequence, hrun]
  refine ⟨?_, ?_, ?_⟩
  · rw [htr]; exact written_split _ _
  · simp [send_sequence, hrun, Except.mapError]
  · rw [htr, attempted_split]
    simpa using List.take_concat_get' bufs i hi

/-- Witness for C3: transport rejecting write index 1 over three
buffers — the first is written, the failure names index 1, the third
is never attempted. -/
theorem C3_stop_at_first_failure_witness :
    1 < [[10], [20], [30]].length ∧
    (∀ j, j < 1 → (fun n => n != 1) j = true) ∧
    (fun n => n != 1) 1 = false ∧
    (written (send_sequence PrinterLink.Connected (fun n => n != 1)
        [[10], [20], [30]]).1 = [[10], [20], [30]].take 1 ∧
     (send_sequence PrinterLink.Connected (fun n => n != 1)
        [[10], [20], [30]]).2 =
       Except.error (TransportError.ChunkWriteFailed 1) ∧
     attempted (send_sequence PrinterLink.Connected (fun n => n != 1)
        [[10], [20], [30]]).1 = [[10], [20], [30]].take (1 + 1)) :=
  ⟨by decide,
   fun j hj => by interval_cases j; rfl,
   by decide,
   C3_stop_at_first_failure (fun n => n != 1) [[10], [20], [30]] 1
     (by decide) (fun j hj => by interval_cases j; rfl) (by decide)⟩

/-- C7: invoking the transport writer on a disconnected link fails
fast with `LinkNotConnected` and writes zero bytes, both for a raw
buffer sequence and for the guarded print path of
`printBluetoothDirect` (the `!bt.characteristic` early return in
`App.tsx`). -/
theorem C7_not_connected_fails_fast (ok : Nat → Bool)
    (bufs : List (List Nat)) (ps : PrinterSettings) (form : ClientForm)
    (cart : List CartItem) (isTest : Bool) :
    send_sequence PrinterLink.Disconnected ok bufs =
      ([], Except.error TransportError.LinkNotConnected) ∧
    printBluetoothDirect PrinterLink.Disconnected ok ps form cart isTest =
      ([], Except.error TransportError.LinkNotConnected) ∧
    written (send_sequence PrinterLink.Disconnected ok bufs).1 = [] ∧
    attempted (send_sequence PrinterLink.Disconnected ok bufs).1 = [] :=
  ⟨rfl, rfl, rfl, rfl⟩

/-- C4: `getSeparator` returns a dash line of exactly `width profile`
characters followed by the line terminator, with the fixed policy
widths 32 for the Narrow (58mm) profile and 48 for the Wide (80mm)
profile — checked for both possible profile values. -/
theorem C4_separator_width (p : PaperProfile) :
    (getSeparator p).data = List.replicate (width p) '-' ++ ['\n'] ∧
    (getSeparator p).length = width p + 1 ∧
    width PaperProfile.Narrow = 32 ∧ width PaperProfile.Wide = 48 := by
  cases p <;> refine ⟨by decide, by decide, rfl, rfl⟩

/-- C5: for every control `PrinterCommand` variant, `encode` returns
the exact fixed byte literal of that variant, and the encoding of a
command is independent of any prior call: after an arbitrary history
of prior encodings the last produced buffer is always `encode c`
(statelessness).  Totality — `encode` never fails — is carried by its
type: it is a plain function into byte lists. -/
theorem C5_encode_control_literals (pre : List PrinterCommand)
    (c : PrinterCommand) :
    encode PrinterCommand.Init = [27, 64] ∧
    encode PrinterCommand.AlignLeft = [27, 97, 0] ∧
    encode PrinterCommand.AlignCenter = [27, 97, 1] ∧
    encode PrinterCommand.BoldOn = [27, 69, 1] ∧
    encode PrinterCommand.BoldOff = [27, 69, 0] ∧
    encode PrinterCommand.FontNormal = [29, 33, 0] ∧
    encode PrinterCommand.FontLarge = [29, 33, 17] ∧
    encode PrinterCommand.FontDoubleHeight = [29, 33, 1] ∧
    encode PrinterCommand.Feed = [10] ∧
    ((pre ++ [c]).map encode).getLast? = some (encode c) := by
  refine ⟨rfl, rfl, rfl, rfl, rfl, rfl, rfl, rfl, rfl, ?_⟩
  simp

/-- C6: text encoding is total (a plain function — it never fails nor
aborts the job, and `encode` hands the degraded bytes on rather than
an error): it is length-preserving, maps every in-range character to
its single-byte code point and every out-of-range character to the
fallback byte 63 = `'?'`, pointwise in order, and produces only
single-byte values. -/
theorem C6_text_fallback (s : String) :
    (textToBytes s).length = s.length ∧
    (∀ p ∈ s.data.zip (textToBytes s),
      p.2 = if p.1.toNat ≤ 255 then p.1.toNat else 63) ∧
    (∀ b ∈ textToBytes s, b ≤ 255) ∧
    ('?').toNat = 63 ∧
    encode (PrinterCommand.Text s) = textToBytes s := by
  refine ⟨by rw [textToBytes, List.length_map]; rfl, ?_, ?_, rfl, rfl⟩
  · intro p hp
    have hz : s.data.zip (textToBytes s) =
        s.data.map (fun a => (a, if a.toNat ≤ 255 then a.toNat else 63)) := by
      have := List.zip_map' id (fun c => if c.toNat ≤ 255 then c.toNat else 63) s.data
      simpa [textToBytes] using this
    rw [hz] at hp
    obtain ⟨c, _, rfl⟩ := List.mem_map.mp hp
    rfl
  · intro b hb
    obtain ⟨c, _, rfl⟩ := List.mem_map.mp hb
    split <;> omega

/-- C8: the caller-assembled buffer list of a print job is handed to
the transport one buffer at a time, in exactly the assembled (receipt)
order — the accepting-transport trace is the buffer list itself, in
order — and in the concrete scenario `[Init, AlignCenter,
Text "HELLO", Feed]` with chunk limit 512 the four encoded buffers are
each within the limit, sent in exactly that order, and their
concatenation carries the text `HELLO` (bytes 72,69,76,76,79) between
the init/align control bytes and the feed byte. -/
theorem C8_receipt_order_scenario (ps : PrinterSettings)
    (form : ClientForm) (cart : List CartItem) (isTest : Bool) :
    (printBluetoothDirect PrinterLink.Connected (fun _ => true)
        ps form cart isTest).1 =
      (printBuffers ps form cart isTest).map (fun b => (b, true)) ∧
    written (printBluetoothDirect PrinterLink.Connected (fun _ => true)
        ps form cart isTest).1 = printBuffers ps form cart isTest ∧
    ([PrinterCommand.Init, PrinterCommand.AlignCenter,
        PrinterCommand.Text "HELLO", PrinterCommand.Feed].map encode).length
      = 4 ∧
    (∀ b ∈ [PrinterCommand.Init, PrinterCommand.AlignCenter,
        PrinterCommand.Text "HELLO", PrinterCommand.Feed].map encode,
      b.length ≤ 512) ∧
    written (send_sequence PrinterLink.Connected (fun _ => true)
        ([PrinterCommand.Init, PrinterCommand.AlignCenter,
          PrinterCommand.Text "HELLO", PrinterCommand.Feed].map encode)).1 =
      [PrinterCommand.Init, PrinterCommand.AlignCenter,
        PrinterCommand.Text "HELLO", PrinterCommand.Feed].map encode ∧
    ([PrinterCommand.Init, PrinterCommand.AlignCenter,
        PrinterCommand.Text "HELLO", PrinterCommand.Feed].map encode).flatten
      = [27, 64] ++ [27, 97, 1] ++ [72, 69, 76, 76, 79] ++ [10] := by
  have htrace : (printBluetoothDirect PrinterLink.Connected (fun _ => true)
      ps form cart isTest).1 =
      (printBuffers ps form cart isTest).map (fun b => (b, true)) := by
    simp [printBluetoothDirect, send_sequence,
      sendSeqFrom_ok (fun _ => true) (printBuffers ps form cart isTest) 0
        (fun _ _ => rfl)]
  refine ⟨htrace, ?_, by decide, by decide, ?_, by decide⟩
  · rw [htrace]; exact written_all _
  · rw [show (send_sequence PrinterLink.Connected (fun _ => true)
        ([PrinterCommand.Init, PrinterCommand.AlignCenter,
          PrinterCommand.Text "HELLO", PrinterCommand.Feed].map encode)).1 =
        ([PrinterCommand.Init, PrinterCommand.AlignCenter,
          PrinterCommand.Text "HELLO", PrinterCommand.Feed].map encode).map
          (fun b => (b, true)) by decide]
    exact written_all _

theorem plain_finalBold (l : List PrinterCommand)
    (h : ∀ c ∈ l, plain c = true) (b : Bool) : finalBold b l = b := by
  induction l generalizing b with
  | nil => rfl
  | cons c t ih =>
    have hc : plain c = true := h c (List.mem_cons_self c t)
    have ht : ∀ c ∈ t, plain c = true := fun c hm => h c (List.mem_cons_of_mem _ hm)
    cases c <;> simp [plain] at hc <;> simpa [finalBold] using ih ht b

theorem plain_finalFont (l : List PrinterCommand)
    (h : ∀ c ∈ l, plain c = true) (f : FontState) : finalFont f l = f := by
  induction l generalizing f with
  | nil => rfl
  | cons c t ih =>
    have hc : plain c = true := h c (List.mem_cons_self c t)
    have ht : ∀ c ∈ t, plain c = true := fun c hm => h c (List.mem_cons_of_mem _ hm)
    cases c <;> simp [plain] at hc <;> simpa [finalFont] using ih ht f

theorem finalBold_append (b : Bool) (l m : List PrinterCommand) :
    finalBold b (l ++ m) = finalBold (finalBold b l) m := by
  induction l generalizing b with
  | nil => rfl
  | cons c t ih => cases c <;> simp [finalBold, ih]

theorem finalFont_append (f : FontState) (l m : List PrinterCommand) :
    finalFont f (l ++ m) = finalFont (finalFont f l) m := by
  induction l generalizing f with
  | nil => rfl
  | cons c t ih => cases c <;> simp [finalFont, ih]

theorem plain_boldClosed (l m : List PrinterCommand)
    (h : ∀ c ∈ l, plain c = true) :
    boldClosed (l ++ m) = boldClosed m := by
  induction l with
  | nil => rfl
  | cons c t ih =>
    have hc : plain c = true := h c (List.mem_cons_self c t)
    have ht : ∀ c ∈ t, plain c = true := fun c hm => h c (List.mem_cons_of_mem _ hm)
    have hne : c ≠ PrinterCommand.BoldOn := by
      intro hrfl; rw [hrfl] at hc; simp [plain] at hc
    simp [boldClosed, hne, ih ht]

theorem plain_fontClosed (l m : List PrinterCommand)
    (h : ∀ c ∈ l, plain c = true) :
    fontClosed (l ++ m) = fontClosed m := by
  induction l with
  | nil => rfl
  | cons c t ih =>
    have hc : plain c = true := h c (List.mem_cons_self c t)
    have ht : ∀ c ∈ t, plain c = true := fun c hm => h c (List.mem_cons_of_mem _ hm)
    have hne : ¬(c = PrinterCommand.FontLarge ∨ c = PrinterCommand.FontDoubleHeight) := by
      rintro (hrfl | hrfl) <;> rw [hrfl] at hc <;> simp [plain] at hc
    simp [fontClosed, hne, ih ht]

theorem plain_boldClosed_nil (l : List PrinterCommand)
    (h : ∀ c ∈ l, plain c = true) : boldClosed l = true := by
  have h2 := plain_boldClosed l [] h
  simpa using h2

theorem plain_fontClosed_nil (l : List PrinterCommand)
    (h : ∀ c ∈ l, plain c = true) : fontClosed l = true := by
  have h2 := plain_fontClosed l [] h
  simpa using h2

theorem plain_count_boldOn (l : List PrinterCommand)
    (h : ∀ c ∈ l, plain c = true) : l.count PrinterCommand.BoldOn = 0 := by
  rw [List.count_eq_zero]
  intro hm
  have h2 := h _ hm
  simp [plain] at h2

theorem plain_count_boldOff (l : List PrinterCommand)
    (h : ∀ c ∈ l, plain c = true) : l.count PrinterCommand.BoldOff = 0 := by
  rw [List.count_eq_zero]
  intro hm
  have h2 := h _ hm
  simp [plain] at h2

theorem receiptShape_boldClosed (flag : Bool) (t1 tot foot : String)
    (m k : List PrinterCommand)
    (hm : ∀ c ∈ m, plain c = true) (hk : ∀ c ∈ k, plain c = true) :
    boldClosed (receiptShape flag t1 tot foot m k) = true := by
  have hmB : ∀ r, boldClosed (m ++ r) = boldClosed r :=
    fun r => plain_boldClosed m r hm
  have hkB : boldClosed k = true := plain_boldClosed_nil k hk
  cases flag <;>
    simp [receiptShape, boldClosed, hmB, hkB, List.mem_append]

theorem receiptShape_fontClosed (flag : Bool) (t1 tot foot : String)
    (m k : List PrinterCommand)
    (hm : ∀ c ∈ m, plain c = true) (hk : ∀ c ∈ k, plain c = true) :
    fontClosed (receiptShape flag t1 tot foot m k) = true := by
  have hmF : ∀ r, fontClosed (m ++ r) = fontClosed r :=
    fun r => plain_fontClosed m r hm
  have hkF : fontClosed k = true := plain_fontClosed_nil k hk
  cases flag <;>
    simp [receiptShape, fontClosed, hmF, hkF, List.mem_append]

theorem receiptShape_finalBold (flag : Bool) (t1 tot foot : String)
    (m k : List PrinterCommand)
    (hm : ∀ c ∈ m, plain c = true) (hk : ∀ c ∈ k, plain c = true)
    (b : Bool) :
    finalBold b (receiptShape flag t1 tot foot m k) = false := by
  have hmB : ∀ b r, finalBold b (m ++ r) = finalBold b r := by
    intro b r
    rw [finalBold_append, plain_finalBold m hm]
  have hkB : ∀ b, finalBold b k = b := fun b => plain_finalBold k hk b
  cases flag <;>
    simp [receiptShape, finalBold, hmB, hkB]

theorem receiptShape_finalFont (flag : Bool) (t1 tot foot : String)
    (m k : List PrinterCommand)
    (hm : ∀ c ∈ m, plain c = true) (hk : ∀ c ∈ k, plain c = true)
    (f : FontState) :
    finalFont f (receiptShape flag t1 tot foot m k) = FontState.normal := by
  have hmF : ∀ f r, finalFont f (m ++ r) = finalFont f r := by
    intro f r
    rw [finalFont_append, plain_finalFont m hm]
  have hkF : ∀ f, finalFont f k = f := fun f => plain_finalFont k hk f
  cases flag <;>
    simp [receiptShape, finalFont, hmF, hkF]

theorem receiptShape_count_boldOn (flag : Bool) (t1 tot foot : String)
    (m k : List PrinterCommand)
    (hm : ∀ c ∈ m, plain c = true) (hk : ∀ c ∈ k, plain c = true) :
    (receiptShape flag t1 tot foot m k).count PrinterCommand.BoldOn =
      (if flag then 2 else 1) := by
  have hmC : m.count PrinterCommand.BoldOn = 0 := plain_count_boldOn m hm
  have hkC : k.count PrinterCommand.BoldOn = 0 := plain_count_boldOn k hk
  cases flag <;>
    simp [receiptShape, List.count_append, List.count_cons, hmC, hkC]

theorem receiptShape_count_boldOff (flag : Bool) (t1 tot foot : String)
    (m k : List PrinterCommand)
    (hm : ∀ c ∈ m, plain c = true) (hk : ∀ c ∈ k, plain c = true) :
    (receiptShape flag t1 tot foot m k).count PrinterCommand.BoldOff =
      (if flag then 2 else 1) := by
  have hmC : m.count PrinterCommand.BoldOff = 0 := plain_count_boldOff m hm
  have hkC : k.count PrinterCommand.BoldOff = 0 := plain_count_boldOff k hk
  cases flag <;>
    simp [receiptShape, List.count_append, List.count_cons, hmC, hkC]

theorem printCommands_shape (ps : PrinterSettings) (form : ClientForm)
    (cart : List CartItem) (isTest : Bool) :
    printCommands ps form cart isTest =
      receiptShape ps.boldHeaders "HAIRI MUSTAFA ASSOCIATES"
        ("JUMLAH: RM " ++ (if isTest then "10.00" else toFixed2 (cartTotal cart)))
        (if ps.footerText = "" then "Terima Kasih" else ps.footerText)
        (printMiddle ps form cart isTest)
        (List.replicate ps.extraFeeds PrinterCommand.Feed) := by
  simp [printCommands, printMiddle, receiptShape]

theorem forall_plain_append (l1 l2 : List PrinterCommand)
    (h1 : ∀ c ∈ l1, plain c = true) (h2 : ∀ c ∈ l2, plain c = true) :
    ∀ c ∈ l1 ++ l2, plain c = true :=
  List.forall_mem_append.mpr ⟨h1, h2⟩

theorem printMiddle_plain (ps : PrinterSettings) (form : ClientForm)
    (cart : List CartItem) (isTest : Bool) :
    ∀ c ∈ printMiddle ps form cart isTest, plain c = true := by
  simp only [printMiddle]
  refine forall_plain_append _ _
    (forall_plain_append _ _
      (forall_plain_append _ _
        (forall_plain_append _ _
          (forall_plain_append _ _ ?_ ?_) ?_) ?_) ?_) ?_
  · intro c hc
    simp only [List.mem_cons, List.not_mem_nil, or_false] at hc
    rcases hc with rfl | rfl | rfl | rfl | rfl | rfl <;> rfl
  · intro c hc
    split at hc
    · simp only [List.mem_cons, List.not_mem_nil, or_false] at hc
      rw [hc]; rfl
    · simp at hc
  · intro c hc
    split at hc
    · simp only [List.mem_cons, List.not_mem_nil, or_false] at hc
      rw [hc]; rfl
    · simp at hc
  · intro c hc
    simp only [List.mem_cons, List.not_mem_nil, or_false] at hc
    rw [hc]; rfl
  · intro c hc
    split at hc
    · simp only [List.mem_cons, List.not_mem_nil, or_false] at hc
      rcases hc with rfl | rfl <;> rfl
    · rw [List.mem_flatMap] at hc
      obtain ⟨item, _, hm⟩ := hc
      simp only [List.mem_cons, List.not_mem_nil, or_false] at hm
      rcases hm with rfl | rfl <;> rfl
  · intro c hc
    simp only [List.mem_cons, List.not_mem_nil, or_false] at hc
    rw [hc]; rfl

theorem feeds_plain (n : Nat) :
    ∀ c ∈ List.replicate n PrinterCommand.Feed, plain c = true := by
  intro c hc
  rw [List.eq_of_mem_replicate hc]
  rfl

/-- C9: every command sequence emitted by `printBluetoothDirect`
restores formatting state before the job ends: every `ESC_BOLD_ON` is
followed later in the sequence by an `ESC_BOLD_OFF`, every
`FONT_SIZE_LARGE` or `FONT_SIZE_DOUBLE_HEIGHT` is followed later by a
`FONT_SIZE_NORMAL`, the final bold state is off and the final font
size is normal from any starting state, and the header bold pair is
emitted exactly when `boldHeaders` is set: the sequence holds two
`BoldOn`/`BoldOff` pairs when `boldHeaders` is true and one (the
total-section pair) otherwise. -/
theorem C9_formatting_restored (ps : PrinterSettings) (form : ClientForm)
    (cart : List CartItem) (isTest : Bool) :
    boldClosed (printCommands ps form cart isTest) = true ∧
    fontClosed (printCommands ps form cart isTest) = true ∧
    (∀ b, finalBold b (printCommands ps form cart isTest) = false) ∧
    (∀ f, finalFont f (printCommands ps form cart isTest) = FontState.normal) ∧
    (printCommands ps form cart isTest).count PrinterCommand.BoldOn =
      (if ps.boldHeaders then 2 else 1) ∧
    (printCommands ps form cart isTest).count PrinterCommand.BoldOff =
      (if ps.boldHeaders then 2 else 1) := by
  rw [printCommands_shape]
  have hm := printMiddle_plain ps form cart isTest
  have hk := feeds_plain ps.extraFeeds
  exact ⟨receiptShape_boldClosed _ _ _ _ _ _ hm hk,
    receiptShape_fontClosed _ _ _ _ _ _ hm hk,
    fun b => receiptShape_finalBold _ _ _ _ _ _ hm hk b,
    fun f => receiptShape_finalFont _ _ _ _ _ _ hm hk f,
    receiptShape_count_boldOn _ _ _ _ _ _ hm hk,
    receiptShape_count_boldOff _ _ _ _ _ _ hm hk⟩

theorem listPre_append (p : List Char) :
    ∀ (a b : List Char), p.length ≤ a.length →
      listPre p (a ++ b) = listPre p a := by
  induction p with
  | nil => intro a b _; rfl
  | cons x xs ih =>
    intro a b hle
    cases a with
    | nil => simp at hle
    | cons y ys =>
      simp only [List.cons_append, listPre]
      exact congrArg (fun z => x == y && z) (ih ys b (by simpa using hle))

/-- The fully resolved command sequence of a test print
(`isTest = true` in `printBluetoothDirect`): conditionals on
`isTest`, `includePhone`, `includeAddress`, `cart` are resolved. -/
theorem printCommands_test (ps : PrinterSettings) (form : ClientForm)
    (cart : List CartItem) :
    printCommands ps form cart true =
      [PrinterCommand.Init, PrinterCommand.AlignCenter]
      ++ (if ps.boldHeaders then [PrinterCommand.BoldOn] else [])
      ++ [PrinterCommand.FontLarge,
          PrinterCommand.Text "HAIRI MUSTAFA ASSOCIATES",
          PrinterCommand.FontNormal]
      ++ (if ps.boldHeaders then [PrinterCommand.BoldOff] else [])
      ++ [PrinterCommand.Text "Peguam Syarie & PJS",
          PrinterCommand.Text "011-5653 1310",
          PrinterCommand.Text (getSeparator ps.paperWidth),
          PrinterCommand.AlignLeft,
          PrinterCommand.Text ("Tarikh: " ++ formatDateForDisplay form.date),
          PrinterCommand.Text "Nama: TEST PRINT",
          PrinterCommand.Text (getSeparator ps.paperWidth),
          PrinterCommand.Text "TEST SERVICE",
          PrinterCommand.Text "RM 10.00",
          PrinterCommand.Text (getSeparator ps.paperWidth),
          PrinterCommand.AlignCenter,
          PrinterCommand.BoldOn,
          PrinterCommand.FontDoubleHeight,
          PrinterCommand.Text "JUMLAH: RM 10.00",
          PrinterCommand.FontNormal,
          PrinterCommand.BoldOff,
          PrinterCommand.Text (if ps.footerText = "" then "Terima Kasih"
            else ps.footerText)]
      ++ List.replicate ps.extraFeeds PrinterCommand.Feed := by
  simp [printCommands]

/-- C10 counterexample: with the footer text configured to
"Tel: 011-5653 1310", a test print emits a line beginning with
`Tel: ` (the footer), so the claim "no Tel: or Alamat: line is ever
emitted" is false as stated: it can come from the footer setting. -/
theorem C10_counterexample :
    hasTelLine (printCommands
      ⟨PaperProfile.Narrow, "Normal", 3, true, "Tel: 011-5653 1310",
        true, true⟩
      ⟨"", "Ali", "", "", PaymentMethod.TUNAI⟩ [] true) = true := by
  decide

/-- C10 amended: with `isTest = true` the emitted command sequence is
independent of the cart contents, the customer's phone and address,
and the `includePhone`/`includeAddress` settings (any two states
agreeing on all other inputs produce identical sequences); the body is
the fixed block `TEST SERVICE` / `RM 10.00` between separators; the
total line is `JUMLAH: RM 10.00`; and no `Tel: `/`Alamat: ` line is
emitted provided the configured footer text does not itself begin with
one of those prefixes (the customer phone/address lines are never
emitted in test mode). -/
theorem C10_test_mode (ps ps' : PrinterSettings) (form form' : ClientForm)
    (cart cart' : List CartItem)
    (hpw : ps.paperWidth = ps'.paperWidth)
    (hfs : ps.fontSize = ps'.fontSize)
    (hef : ps.extraFeeds = ps'.extraFeeds)
    (hbh : ps.boldHeaders = ps'.boldHeaders)
    (hft : ps.footerText = ps'.footerText)
    (hdate : form.date = form'.date)
    (hname : form.name = form'.name)
    (hpay : form.payment = form'.payment) :
    printCommands ps form cart true = printCommands ps' form' cart' true ∧
    [PrinterCommand.Text (getSeparator ps.paperWidth),
     PrinterCommand.Text "TEST SERVICE", PrinterCommand.Text "RM 10.00",
     PrinterCommand.Text (getSeparator ps.paperWidth)] <:+:
      printCommands ps form cart true ∧
    PrinterCommand.Text "JUMLAH: RM 10.00" ∈ printCommands ps form cart true ∧
    (listPre ("Tel: ".data) ps.footerText.data = false →
     listPre ("Alamat: ".data) ps.footerText.data = false →
     hasTelLine (printCommands ps form cart true) = false) := by
  refine ⟨?_, ?_, ?_, ?_⟩
  · rw [printCommands_test ps form cart, printCommands_test ps' form' cart',
      hpw, hbh, hft, hef, hdate]
  · refine ⟨[PrinterCommand.Init, PrinterCommand.AlignCenter]
      ++ (if ps.boldHeaders then [PrinterCommand.BoldOn] else [])
      ++ [PrinterCommand.FontLarge,
          PrinterCommand.Text "HAIRI MUSTAFA ASSOCIATES",
          PrinterCommand.FontNormal]
      ++ (if ps.boldHeaders then [PrinterCommand.BoldOff] else [])
      ++ [PrinterCommand.Text "Peguam Syarie & PJS",
          PrinterCommand.Text "011-5653 1310",
          PrinterCommand.Text (getSeparator ps.paperWidth),
          PrinterCommand.AlignLeft,
          PrinterCommand.Text ("Tarikh: " ++ formatDateForDisplay form.date),
          PrinterCommand.Text "Nama: TEST PRINT"],
      [PrinterCommand.AlignCenter, PrinterCommand.BoldOn,
       PrinterCommand.FontDoubleHeight,
       PrinterCommand.Text "JUMLAH: RM 10.00",
       PrinterCommand.FontNormal, PrinterCommand.BoldOff,
       PrinterCommand.Text (if ps.footerText = "" then "Terima Kasih"
         else ps.footerText)]
      ++ List.replicate ps.extraFeeds PrinterCommand.Feed, ?_⟩
    rw [printCommands_test ps form cart]
    simp
  · rw [printCommands_test ps form cart]
    simp
  · intro hTel hAla
    rw [printCommands_test ps form cart]
    rw [hasTelLine, List.any_eq_false]
    simp only [List.forall_mem_append, and_assoc]
    refine ⟨?_, ?_, ?_, ?_, ?_, ?_⟩
    · intro c hc
      simp only [List.mem_cons, List.not_mem_nil, or_false] at hc
      rcases hc with rfl | rfl <;> decide
    · intro c hc
      split at hc
      · simp only [List.mem_cons, List.not_mem_nil, or_false] at hc
        rw [hc]; decide
      · simp at hc
    · intro c hc
      simp only [List.mem_cons, List.not_mem_nil, or_false] at hc
      rcases hc with rfl | rfl | rfl <;> decide
    · intro c hc
      split at hc
      · simp only [List.mem_cons, List.not_mem_nil, or_false] at hc
        rw [hc]; decide
      · simp at hc
    · intro c hc
      simp only [List.mem_cons, List.not_mem_nil, or_false] at hc
      rcases hc with rfl | rfl | rfl | rfl | rfl | rfl | rfl | rfl | rfl |
        rfl | rfl | rfl | rfl | rfl | rfl | rfl | rfl
      all_goals try decide
      all_goals try (cases ps.paperWidth <;> decide)
      · simp only [telOrAlamat, String.data_append]
        rw [listPre_append _ _ _ (by decide), listPre_append _ _ _ (by decide)]
        decide
      · simp only [telOrAlamat]
        split
        · decide
        · simp [hTel, hAla]
    · intro c hc
      rw [List.eq_of_mem_replicate hc]
      decide

/-- Witness for the amended C10 at two concrete states differing only
in cart, phone, address and the include flags. -/
theorem C10_test_mode_witness :
    psA.paperWidth = psB.paperWidth ∧
    psA.fontSize = psB.fontSize ∧
    psA.extraFeeds = psB.extraFeeds ∧
    psA.boldHeaders = psB.boldHeaders ∧
    psA.footerText = psB.footerText ∧
    formA.date = formB.date ∧
    formA.name = formB.name ∧
    formA.payment = formB.payment ∧
    (printCommands psA formA cartA true = printCommands psB formB [] true ∧
     [PrinterCommand.Text (getSeparator psA.paperWidth),
      PrinterCommand.Text "TEST SERVICE", PrinterCommand.Text "RM 10.00",
      PrinterCommand.Text (getSeparator psA.paperWidth)] <:+:
       printCommands psA formA cartA true ∧
     PrinterCommand.Text "JUMLAH: RM 10.00" ∈ printCommands psA formA cartA true ∧
     (listPre ("Tel: ".data) psA.footerText.data = false →
      listPre ("Alamat: ".data) psA.footerText.data = false →
      hasTelLine (printCommands psA formA cartA true) = false)) :=
  ⟨rfl, rfl, rfl, rfl, rfl, rfl, rfl, rfl,
   C10_test_mode psA psB formA formB cartA [] rfl rfl rfl rfl rfl rfl rfl rfl⟩
